import Mathlib

/-!
Shallow embedding of the `edgen` serving front-end core
(`crates/edgen_server/src/util/stopping_stream.rs`,
`crates/edgen_server/src/model.rs`, `crates/edgen_server/src/openai_shim.rs`),
together with theorems settling the spec claims about it.

Rust `String` values are embedded as `List Char` (`Str` below); Rust
`str::starts_with` becomes `List.isPrefixOf` (with the arguments flipped:
`a.starts_with(b)` is `b.isPrefixOf a`).
-/

/-- Embedding of Rust `String` as a list of characters. -/
abbrev Str := List Char

/-- State of `StoppingStream` (stopping_stream.rs, lines 23-40).  The inner
stream of `String` chunks is embedded as the list of chunks it has yet to
yield (`inner`); a real `Poll::Pending` from upstream merely suspends and is
invisible to the filter's logic, so it is not modelled. -/
structure StoppingStream where
  inner : List Str
  stop_words : List Str
  working_buf : Str
  is_fused : Bool
deriving Repr, DecidableEq

/-- `StoppingStream::wrap_with_stop_words` (stopping_stream.rs, lines 50-57). -/
def wrap_with_stop_words (inner : List Str) (stop_words : List Str) : StoppingStream :=
  { inner := inner
    stop_words := stop_words
    working_buf := []
    is_fused := false }

/-- Outcome of the `'stop_words` scan loop over the stop words
(stopping_stream.rs, lines 86-101). -/
inductive ScanResult where
  | terminate
  | stall
  | emit
deriving Repr, DecidableEq

/-- The `'stop_words` loop body (stopping_stream.rs, lines 88-101): for each
stop word in order, `working_buf.starts_with(stop_word)` forces termination,
otherwise `stop_word.starts_with(working_buf)` stalls emission and breaks out
of the loop; if no stop word matches either test, the buffer is emitted. -/
def scanStopWords (working_buf : Str) : List Str → ScanResult
  | [] => .emit
  | stop_word :: rest =>
    if stop_word.isPrefixOf working_buf then .terminate
    else if working_buf.isPrefixOf stop_word then .stall
    else scanStopWords working_buf rest

/-- The `loop` of `StoppingStream::poll_next` (stopping_stream.rs, lines
73-108), run over the remaining upstream chunks.  Returns the yielded item
(`none` embeds `Poll::Ready(None)`) together with the new `working_buf`, the
remaining upstream chunks, and the new `is_fused` flag.  Note that upstream
exhaustion sets the fuse (line 77), while stop-word termination (line 90)
returns without touching it. -/
def pollNextAux (stop_words : List Str) :
    List Str → Str → Option Str × Str × List Str × Bool
  | [], working_buf => (none, working_buf, [], true)
  | token :: rest, working_buf =>
    let buf := working_buf ++ token
    match scanStopWords buf stop_words with
    | .terminate => (none, buf, rest, false)
    | .stall => pollNextAux stop_words rest buf
    | .emit => (some buf, [], rest, false)

/-- `StoppingStream::poll_next` (stopping_stream.rs, lines 66-109) as a state
transformer: one poll of the filtered stream. -/
def pollNext (s : StoppingStream) : Option Str × StoppingStream :=
  if s.is_fused then (none, s)
  else
    let r := pollNextAux s.stop_words s.inner s.working_buf
    (r.1, { s with working_buf := r.2.1, inner := r.2.2.1, is_fused := r.2.2.2 })

/-- Fueled driver behind `collect`. -/
def collectAux : Nat → StoppingStream → List Str
  | 0, _ => []
  | fuel + 1, s =>
    match pollNext s with
    | (none, _) => []
    | (some out, s') => out :: collectAux fuel s'

/-- `StreamExt::collect` over the filtered stream: poll until the first
`Poll::Ready(None)`, gathering the yielded chunks.  Each successful poll
consumes at least one upstream chunk, so `inner.length + 1` polls suffice. -/
def StoppingStream.collect (s : StoppingStream) : List Str :=
  collectAux (s.inner.length + 1) s

/-- `haystack` contains `needle` as a contiguous substring (Rust
`str::contains` on the embedded strings).  Used only to state claims; the
filter itself never computes this. -/
def containsSlice (haystack needle : Str) : Bool :=
  (List.range (haystack.length + 1)).any fun i => needle.isPrefixOf (haystack.drop i)

/-- Input chunks fixed by the `stopping_stream_all` Rust test
(stopping_stream.rs, lines 169-189). -/
def testChunks : List Str :=
  ["apple".toList, "banana".toList, "coconut".toList, "dill".toList, "eggplant".toList]

/-- `Endpoint` (crate::types): the three request kinds dispatched on in
model.rs, lines 253-283. -/
inductive Endpoint where
  | ChatCompletions
  | AudioTranscriptions
  | Embeddings
deriving Repr, DecidableEq

/-- `ModelKind` (model.rs, lines 45-50). -/
inductive ModelKind where
  | LLM
  | Whisper
  | ChatFaker
deriving Repr, DecidableEq

/-- `ModelError` (model.rs, lines 28-43).  The spec's failure taxonomy (§7)
names `UnknownModel` as `UnresolvedModel`, `API` as `RepositoryError` and
`JoinError` as `InternalJoinError`. -/
inductive ModelError where
  | FileNotFound (text : Str)
  | UnknownModel (kind : ModelKind)
  | UnknownKind (text : Str)
  | API (text : Str)
  | JoinError (text : Str)
  | NotPreloaded
deriving Repr, DecidableEq

/-- `ModelQuantization` (model.rs, lines 52-55). -/
inductive ModelQuantization where
  | Default
deriving Repr, DecidableEq

/-- `Model` (model.rs, lines 131-141); paths are embedded as `Str`. -/
structure Model where
  kind : ModelKind
  quantization : ModelQuantization
  name : Str
  repo : Str
  dir : Str
  path : Str
  preloaded : Bool
deriving Repr, DecidableEq

/-- `PathBuf::join`: `dir.join(name)`, embedded as appending one separator and
the file name. -/
def pathJoin (dir name : Str) : Str := dir ++ '/' :: name

/-- `Model::new` (model.rs, lines 144-158). -/
def Model.new (kind : ModelKind) (model_name : Str) (repo : Str) (dir : Str) : Model :=
  { kind := kind
    quantization := .Default
    name := model_name
    repo := repo
    dir := dir
    path := pathJoin dir model_name
    preloaded := false }

/-- Externally observable side effects of one `Model::preload` call: the
network probe for the remote size (`Model::get_size`), the start of progress
observation (`observe_download`, standing for the external
`status::observe_*_progress` collaborator), the artifact fetch (`api.get`),
and the progress-sink notifications (`status::set_*_download` /
`status::set_*_progress`). -/
inductive PreloadEvent where
  | sizeProbe
  | observeDownload (ep : Endpoint) (dir : Str) (size : Option Nat) (download : Bool)
  | fetchArtifact
  | setDownloading (ep : Endpoint) (flag : Bool)
  | setProgress (ep : Endpoint) (percent : Nat)
deriving Repr, DecidableEq

/-- The environment a `Model::preload` call runs against: the file system
(`Path::is_file`), the repository client (`ApiBuilder::build`,
`hf_hub::Cache::get`, the size probe, `ApiRepo::get`), and the fate of the two
joined tasks.  Join failures are abnormal (panic/cancellation); the spawned
tasks are modelled as having run to completion, so the event trace is the one
of an uninterrupted execution. -/
structure Env where
  isFile : Str → Bool
  apiBuild : Except Str Unit
  cacheGet : Option Str
  remoteSize : Option Nat
  progressJoin : Except Str Unit
  downloadJoin : Except Str Unit
  fetch : Except Str Str

/-- `observe_download` (model.rs, lines 247-262): dispatches to the per-kind
progress observer; the `Embeddings` arm is `todo!()`, embedded as `none`
(panic). -/
def observe_download (ep : Endpoint) (dir : Str) (size : Option Nat) (download : Bool) :
    Option (List PreloadEvent) :=
  match ep with
  | .ChatCompletions => some [.observeDownload .ChatCompletions dir size download]
  | .AudioTranscriptions => some [.observeDownload .AudioTranscriptions dir size download]
  | .Embeddings => none

/-- `report_start_of_download` (model.rs, lines 264-270); the `Embeddings` arm
is `todo!()`, embedded as `none` (panic). -/
def report_start_of_download (ep : Endpoint) : Option (List PreloadEvent) :=
  match ep with
  | .ChatCompletions => some [.setDownloading .ChatCompletions true]
  | .AudioTranscriptions => some [.setDownloading .AudioTranscriptions true]
  | .Embeddings => none

/-- `report_end_of_download` (model.rs, lines 272-284): 100% progress, then
the download flag cleared; the `Embeddings` arm is `todo!()`, embedded as
`none` (panic). -/
def report_end_of_download (ep : Endpoint) : Option (List PreloadEvent) :=
  match ep with
  | .ChatCompletions =>
    some [.setProgress .ChatCompletions 100, .setDownloading .ChatCompletions false]
  | .AudioTranscriptions =>
    some [.setProgress .AudioTranscriptions 100, .setDownloading .AudioTranscriptions false]
  | .Embeddings => none

/-- `Model::preload` (model.rs, lines 161-218) as a function of the model, the
endpoint and the environment.  Returns `none` when the call panics (the
`todo!()` arms for `Embeddings`), otherwise the result, the updated model and
the trace of observable events in program order.  Note that
`report_end_of_download` runs in the spawned task even when the fetch itself
failed (lines 196-204), so its notifications appear in the trace before the
fetch error is propagated (line 214). -/
def Model.preload (m : Model) (ep : Endpoint) (env : Env) :
    Option (Except ModelError Unit × Model × List PreloadEvent) :=
  if env.isFile m.path then
    some (.ok (), { m with preloaded := true }, [])
  else if m.name.isEmpty || m.repo.isEmpty then
    some (.error (.UnknownModel m.kind), m, [])
  else
    match env.apiBuild with
    | .error e => some (.error (.API e), m, [])
    | .ok _ =>
      let download := env.cacheGet.isNone
      let size := if download then env.remoteSize else none
      let probeEvs : List PreloadEvent := if download then [.sizeProbe] else []
      match observe_download ep m.dir size download,
            (if download then report_start_of_download ep else some []),
            (if download then report_end_of_download ep else some []) with
      | some obsEvs, some startEvs, some endEvs =>
        let evs := probeEvs ++ obsEvs ++ startEvs ++ [.fetchArtifact] ++ endEvs
        match env.progressJoin with
        | .error e => some (.error (.JoinError e), m, evs)
        | .ok _ =>
          match env.downloadJoin with
          | .error e => some (.error (.JoinError e), m, evs)
          | .ok _ =>
            match env.fetch with
            | .error e => some (.error (.API e), m, evs)
            | .ok p => some (.ok (), { m with path := p, preloaded := true }, evs)
      | _, _, _ => none

/-- `Model::file_path` (model.rs, lines 238-244). -/
def Model.file_path (m : Model) : Except ModelError Str :=
  if m.preloaded then .ok m.path else .error .NotPreloaded

def genuineDownload (m : Model) (env : Env) : Bool :=
  !env.isFile m.path && !(m.name.isEmpty || m.repo.isEmpty)
    && env.apiBuild.isOk && env.cacheGet.isNone

def isSinkNotification : PreloadEvent → Bool
  | .setDownloading _ _ => true
  | .setProgress _ _ => true
  | _ => false

deriving instance DecidableEq for Except

/-- Sample cache directory used by concrete witnesses. -/
def sampleDir : Str := "resources".toList

/-- Sample handle, mirroring the `preload` Rust test (model.rs, lines 336-358). -/
def sampleModel : Model := Model.new .LLM "dummy.gguf".toList "dummy".toList sampleDir

/-- Environment in which the resolved path already exists (warm cache). -/
def envWarm : Env :=
  { isFile := fun _ => true
    apiBuild := .ok ()
    cacheGet := none
    remoteSize := none
    progressJoin := .ok ()
    downloadJoin := .ok ()
    fetch := .error [] }

/-- Environment in which the path is absent and a download succeeds. -/
def envCold : Env :=
  { isFile := fun _ => false
    apiBuild := .ok ()
    cacheGet := none
    remoteSize := some 483116416
    progressJoin := .ok ()
    downloadJoin := .ok ()
    fetch := .ok "cache".toList }

/-- Environment in which the progress task fails to join. -/
def envJoinFail : Env :=
  { isFile := fun _ => false
    apiBuild := .ok ()
    cacheGet := none
    remoteSize := some 483116416
    progressJoin := .error "cancelled".toList
    downloadJoin := .ok ()
    fetch := .ok "cache".toList }

/-- Handle with an empty name (identity that can never be resolved). -/
def emptyNameModel : Model := Model.new .Whisper [] "repo".toList "dir".toList

/-- The per-endpoint server configuration read by the handlers
(openai_shim.rs, lines 553-568 and 682-697). -/
structure Settings where
  chat_completions_model_name : Str
  chat_completions_model_repo : Str
  audio_transcriptions_model_name : Str
  audio_transcriptions_model_repo : Str
deriving Repr, DecidableEq

/-- Rust `str::trim`: strip leading and trailing whitespace. -/
def trim (s : Str) : Str :=
  ((s.dropWhile Char.isWhitespace).reverse.dropWhile Char.isWhitespace).reverse

/-- `ChatCompletionError` (openai_shim.rs, lines 489-515); payload details of
the last two variants are irrelevant here and elided to plain text. -/
inductive ChatCompletionError where
  | NoSuchModel (model_name : Str)
  | ProhibitedName (model_name : Str) (reason : Str)
  | Ffi
  | Endpoint (text : Str)
deriving Repr, DecidableEq

/-- `WhisperEndpointError` (crate::whisper, outside the sources at hand):
openai_shim.rs only ever constructs its `FileNotFound` variant (lines 701 and
716); the remaining variants are collapsed into `Other`. -/
inductive WhisperEndpointError where
  | FileNotFound (text : Str)
  | Other (text : Str)
deriving Repr, DecidableEq

/-- The model-resolution prefix of `chat_completions` (openai_shim.rs, lines
549-583): read the configured name and repository, trim them, reject an empty
configured name with `NoSuchModel` before any handle is built, and otherwise
build the handle that is subsequently preloaded.  The client-supplied request
model `req_model` is deliberately never consulted ("For MVP1, the model string
in the request is *always* ignored"). -/
def chat_completions_resolve (settings : Settings) (req_model : Str) (dir : Str) :
    Except ChatCompletionError Model :=
  let model_name := trim settings.chat_completions_model_name
  let repo := trim settings.chat_completions_model_repo
  if model_name.isEmpty then .error (.NoSuchModel model_name)
  else .ok (Model.new .LLM model_name repo dir)

/-- The model-resolution prefix of `create_transcription` (openai_shim.rs,
lines 678-709): identical shape, but an empty configured name is rejected with
`FileNotFound` and the handle is a Whisper handle. -/
def create_transcription_resolve (settings : Settings) (req_model : Str) (dir : Str) :
    Except WhisperEndpointError Model :=
  let model_name := trim settings.audio_transcriptions_model_name
  let repo := trim settings.audio_transcriptions_model_repo
  if model_name.isEmpty then .error (.FileNotFound model_name)
  else .ok (Model.new .Whisper model_name repo dir)

-- Sanity checks against the Rust unit tests (stopping_stream.rs, lines 116-166).
example :
    (wrap_with_stop_words
      ["apple".toList, "banana".toList, "coconut".toList, "dill".toList, "eggplant".toList]
      ["coconut".toList, "eggplant".toList]).collect
    = ["apple".toList, "banana".toList] := by decide

example :
    (wrap_with_stop_words
      ["apple".toList, "banana".toList, "coconut".toList, "dill".toList, "eggplant".toList]
      ["apple".toList, "eggplant".toList]).collect = [] := by decide

example :
    (wrap_with_stop_words
      ["apple".toList, "banana".toList, "coconut".toList, "dill".toList, "eggplant".toList]
      ["eggplant".toList]).collect
    = ["apple".toList, "banana".toList, "coconut".toList, "dill".toList] := by decide

/-- The scan loop yields `emit` exactly when no stop word is a prefix of the
buffer and the buffer is a prefix of no stop word. -/
theorem scanStopWords_eq_emit (buf : Str) (ws : List Str) :
    scanStopWords buf ws = .emit ↔
      ∀ w ∈ ws, w.isPrefixOf buf = false ∧ buf.isPrefixOf w = false := by
  induction ws with
  | nil => simp [scanStopWords]
  | cons w rest ih =>
    by_cases h1 : w.isPrefixOf buf
    · simp [scanStopWords, h1]
    · by_cases h2 : buf.isPrefixOf w
      · simp [scanStopWords, h1, h2]
      · simp only [scanStopWords, if_neg h1, if_neg h2, ih, List.mem_cons]
        constructor
        · intro h x hx
          rcases hx with rfl | hx
          · exact ⟨Bool.eq_false_iff.mpr h1, Bool.eq_false_iff.mpr h2⟩
          · exact h x hx
        · intro h x hx
          exact h x (Or.inr hx)

/-- Boolean prefix tests survive appending on the right. -/
theorem isPrefixOf_append_right (w b t : Str) (h : w.isPrefixOf b = true) :
    w.isPrefixOf (b ++ t) = true := by
  rw [List.isPrefixOf_iff_prefix] at h ⊢
  exact h.trans (List.prefix_append b t)

/-- Whenever the poll loop yields an item, that item passed the scan loop with
outcome `emit`. -/
theorem pollNextAux_emit (sws : List Str) (inner : List Str) :
    ∀ buf out, (pollNextAux sws inner buf).1 = some out →
      scanStopWords out sws = .emit := by
  induction inner with
  | nil => intro buf out h; simp [pollNextAux] at h
  | cons t ts ih =>
    intro buf out h
    simp only [pollNextAux] at h
    split at h
    · simp at h
    · exact ih _ _ h
    · simp only [Option.some.injEq] at h
      subst h
      assumption

/-- Once some stop word is a prefix of the working buffer, the poll loop never
yields an item, and afterwards some stop word is still a prefix of the working
buffer (unchanged if the fuse was set, extended by appended tokens otherwise). -/
theorem pollNextAux_stopped (sws : List Str) (inner : List Str) :
    ∀ buf, (∃ w ∈ sws, w.isPrefixOf buf = true) →
      (pollNextAux sws inner buf).1 = none ∧
        ∃ w ∈ sws, w.isPrefixOf (pollNextAux sws inner buf).2.1 = true := by
  induction inner with
  | nil => intro buf h; simpa [pollNextAux] using h
  | cons t ts ih =>
    intro buf h
    obtain ⟨w, hw, hpre⟩ := h
    have hpre' : w.isPrefixOf (buf ++ t) = true := isPrefixOf_append_right w buf t hpre
    have hscan : scanStopWords (buf ++ t) sws ≠ .emit := by
      intro hc
      have := (scanStopWords_eq_emit (buf ++ t) sws).mp hc w hw
      rw [hpre'] at this
      exact absurd this.1 (by simp)
    simp only [pollNextAux]
    split
    · exact ⟨rfl, w, hw, hpre'⟩
    · exact ih (buf ++ t) ⟨w, hw, hpre'⟩
    · exact absurd (by assumption) hscan

/-- C1 (amended): whenever `poll_next` emits a chunk, no configured stop word
is a prefix of that chunk and the chunk is a prefix of no stop word.  (The
code never tests full containment, so an emitted chunk may still contain a
stop word away from its start; see the counterexample.) -/
theorem emitted_chunk_unrelated_to_stop_words (s : StoppingStream) (out : Str)
    (s' : StoppingStream) (h : pollNext s = (some out, s')) :
    ∀ w ∈ s.stop_words, w.isPrefixOf out = false ∧ out.isPrefixOf w = false := by
  have h1 : (pollNextAux s.stop_words s.inner s.working_buf).1 = some out := by
    by_cases hf : s.is_fused
    · simp [pollNext, hf] at h
    · simp only [pollNext, if_neg hf, Prod.mk.injEq] at h
      exact h.1
  exact (scanStopWords_eq_emit out s.stop_words).mp
    (pollNextAux_emit s.stop_words s.inner s.working_buf out h1)

/-- Witness for C1 (amended) at a concrete emitting poll and stop word. -/
theorem emitted_chunk_unrelated_to_stop_words_witness :
    ("coconut".toList).isPrefixOf "apple".toList = false ∧
      ("apple".toList).isPrefixOf "coconut".toList = false :=
  emitted_chunk_unrelated_to_stop_words
    (wrap_with_stop_words ["apple".toList] ["coconut".toList]) "apple".toList
    { inner := [], stop_words := ["coconut".toList], working_buf := [], is_fused := false }
    (by decide) "coconut".toList (by decide)

/-- C1 counterexample: with stop word `"coconut"` and single upstream chunk
`"xcoconut"`, the filter emits `"xcoconut"`, which contains the stop word —
the claim's emission condition ("does not contain any stop word") and its
consequence ("no emitted chunk ever contains a stop phrase") both fail. -/
theorem emitted_chunk_may_contain_stop_word :
    (wrap_with_stop_words ["xcoconut".toList] ["coconut".toList]).collect
      = ["xcoconut".toList] ∧
      containsSlice "xcoconut".toList "coconut".toList = true := by decide

/-- C2 (amended): once some stop word is a prefix of the pending buffer, the
next poll yields end-of-stream (no item, not an error) and the same condition
still holds afterwards, so no output is ever produced again. -/
theorem stopped_stream_never_emits (s : StoppingStream)
    (h : ∃ w ∈ s.stop_words, w.isPrefixOf s.working_buf = true) :
    (pollNext s).1 = none ∧
      ∃ w ∈ (pollNext s).2.stop_words, w.isPrefixOf (pollNext s).2.working_buf = true := by
  by_cases hf : s.is_fused
  · simpa [pollNext, hf] using h
  · simpa [pollNext, hf] using
      pollNextAux_stopped s.stop_words s.inner s.working_buf h

/-- Witness for C2 (amended) at a concrete stopped state. -/
theorem stopped_stream_never_emits_witness :
    (pollNext { inner := ["x".toList], stop_words := ["apple".toList],
                working_buf := "apple".toList, is_fused := false }).1 = none ∧
      ∃ w ∈ (pollNext { inner := ["x".toList], stop_words := ["apple".toList],
                        working_buf := "apple".toList, is_fused := false }).2.stop_words,
        w.isPrefixOf (pollNext { inner := ["x".toList], stop_words := ["apple".toList],
                                 working_buf := "apple".toList,
                                 is_fused := false }).2.working_buf = true :=
  stopped_stream_never_emits
    { inner := ["x".toList], stop_words := ["apple".toList],
      working_buf := "apple".toList, is_fused := false }
    ⟨"apple".toList, by decide, by decide⟩

/-- C2 counterexample: confirming the stop word `"apple"` returns
end-of-stream but does not set the fuse, and the following poll still consumes
the chunk `"x"` from upstream (`inner` shrinks from `["x"]` to `[]`) — the
claim's "no further chunks are ever requested from upstream" fails. -/
theorem poll_after_stop_still_consumes_upstream :
    pollNext (wrap_with_stop_words ["apple".toList, "x".toList] ["apple".toList])
      = (none, { inner := ["x".toList], stop_words := ["apple".toList],
                 working_buf := "apple".toList, is_fused := false }) ∧
      pollNext { inner := ["x".toList], stop_words := ["apple".toList],
                 working_buf := "apple".toList, is_fused := false }
        = (none, { inner := [], stop_words := ["apple".toList],
                   working_buf := "applex".toList, is_fused := false }) := by decide

/-- C3: for the fixed five-chunk input of the `stopping_stream_all` Rust test
and every index `i < 5`, a filter whose single stop word is the `i`-th chunk
outputs exactly the first `i` chunks. -/
theorem stopping_stream_all (i : Nat) (h : i < 5) :
    (wrap_with_stop_words testChunks [testChunks.getD i []]).collect
      = testChunks.take i := by
  revert i h
  decide

/-- Witness for C3 at `i = 2`. -/
theorem stopping_stream_all_witness :
    (wrap_with_stop_words testChunks [testChunks.getD 2 []]).collect
      = testChunks.take 2 :=
  stopping_stream_all 2 (by decide)

theorem preload_spec (m : Model) (ep : Endpoint) (env : Env)
    (res : Except ModelError Unit) (m' : Model) (evs : List PreloadEvent)
    (h : m.preload ep env = some (res, m', evs)) :
    (res = .ok () → m'.preloaded = true) ∧
      ((∃ e, res = .error e) → m' = m) ∧
      evs.filter isSinkNotification
        = if genuineDownload m env = true then
            [.setDownloading ep true, .setProgress ep 100, .setDownloading ep false]
          else [] := by
  unfold Model.preload at h
  by_cases h1 : env.isFile m.path = true
  · rw [if_pos h1] at h
    simp only [Option.some.injEq, Prod.mk.injEq] at h
    obtain ⟨rfl, rfl, rfl⟩ := h
    simp [genuineDownload, h1]
  · rw [if_neg h1] at h
    by_cases h2 : (m.name.isEmpty || m.repo.isEmpty) = true
    · rw [if_pos h2] at h
      simp only [Option.some.injEq, Prod.mk.injEq] at h
      obtain ⟨rfl, rfl, rfl⟩ := h
      simp [genuineDownload, h1, h2]
    · rw [if_neg h2] at h
      cases hapi : env.apiBuild with
      | error e =>
        simp only [hapi, Option.some.injEq, Prod.mk.injEq] at h
        obtain ⟨rfl, rfl, rfl⟩ := h
        simp [genuineDownload, h1, h2, hapi, Except.isOk, Except.toBool]
      | ok u =>
        simp only [hapi] at h
        cases hdl : env.cacheGet.isNone <;> cases ep <;>
          simp only [hdl, observe_download, report_start_of_download,
            report_end_of_download, Bool.false_eq_true, eq_self_iff_true,
            ite_true, ite_false] at h <;>
          (try exact Option.noConfusion h) <;>
        cases hp : env.progressJoin <;> simp only [hp] at h <;>
        (try cases hd : env.downloadJoin <;> simp only [hd] at h) <;>
        (try cases hf : env.fetch <;> simp only [hf] at h) <;>
        simp only [Option.some.injEq, Prod.mk.injEq] at h <;>
        (obtain ⟨rfl, rfl, rfl⟩ := h) <;>
        simp [genuineDownload, isSinkNotification, h1, h2, hapi, hdl,
          Except.isOk, Except.toBool]

/-- C4: when the resolved local path already exists as a file, `preload` marks
the handle preloaded, succeeds, and performs no observable side effect at all
(no size probe, no fetch, no progress-sink notification). -/
theorem preload_cache_hit (m : Model) (ep : Endpoint) (env : Env)
    (h : env.isFile m.path = true) :
    m.preload ep env = some (.ok (), { m with preloaded := true }, []) := by
  unfold Model.preload
  rw [if_pos h]

/-- Witness for C4 on the sample handle in the warm environment. -/
theorem preload_cache_hit_witness :
    sampleModel.preload .ChatCompletions envWarm
      = some (.ok (), { sampleModel with preloaded := true }, []) :=
  preload_cache_hit sampleModel .ChatCompletions envWarm (by decide)

/-- C5: with no local file and an empty name or repository, `preload` fails
with `UnknownModel` (the spec's `UnresolvedModel`) for the handle's kind,
leaves the handle unchanged, and performs no observable side effect. -/
theorem preload_unresolved_identity (m : Model) (ep : Endpoint) (env : Env)
    (h1 : env.isFile m.path = false) (h2 : m.name = [] ∨ m.repo = []) :
    m.preload ep env = some (.error (.UnknownModel m.kind), m, []) := by
  have hb : (m.name.isEmpty || m.repo.isEmpty) = true := by
    rcases h2 with h | h <;> simp [h]
  unfold Model.preload
  rw [if_neg (by simp [h1]), if_pos hb]

/-- Witness for C5 on an empty-name handle. -/
theorem preload_unresolved_identity_witness :
    emptyNameModel.preload .AudioTranscriptions envCold
      = some (.error (.UnknownModel .Whisper), emptyNameModel, []) :=
  preload_unresolved_identity emptyNameModel .AudioTranscriptions envCold
    (by decide) (Or.inl rfl)

/-- C6: `file_path` returns the resolved path exactly when the handle is
preloaded, fails with `NotPreloaded` otherwise, and in particular always fails
with `NotPreloaded` on a freshly constructed handle. -/
theorem file_path_iff_preloaded (m : Model) :
    (∀ p, m.file_path = .ok p ↔ m.preloaded = true ∧ p = m.path) ∧
      (m.preloaded = false → m.file_path = .error .NotPreloaded) ∧
      (∀ kind n r d, (Model.new kind n r d).file_path = .error .NotPreloaded) := by
  refine ⟨?_, ?_, ?_⟩
  · intro p
    cases hm : m.preloaded <;> simp [Model.file_path, hm, eq_comm]
  · intro hm
    simp [Model.file_path, hm]
  · intro kind n r d
    simp [Model.new, Model.file_path]

/-- Witness for C6 on a freshly constructed handle. -/
theorem file_path_iff_preloaded_witness :
    sampleModel.file_path = .error .NotPreloaded :=
  (file_path_iff_preloaded sampleModel).2.1 (by decide)

/-- C7: the notifications a `preload` call sends to the progress sink are
exactly `set_downloading(kind, true)`, then `set_progress(kind, 100)`, then
`set_downloading(kind, false)` when a genuine download occurred, and nothing
at all otherwise. -/
theorem preload_sink_notifications (m : Model) (ep : Endpoint) (env : Env)
    (res : Except ModelError Unit) (m' : Model) (evs : List PreloadEvent)
    (h : m.preload ep env = some (res, m', evs)) :
    evs.filter isSinkNotification
      = if genuineDownload m env = true then
          [.setDownloading ep true, .setProgress ep 100, .setDownloading ep false]
        else [] :=
  (preload_spec m ep env res m' evs h).2.2

/-- Witness for C7 on a genuine download in the cold environment. -/
theorem preload_sink_notifications_witness :
    ([PreloadEvent.sizeProbe,
      .observeDownload .ChatCompletions "resources".toList (some 483116416) true,
      .setDownloading .ChatCompletions true, .fetchArtifact,
      .setProgress .ChatCompletions 100,
      .setDownloading .ChatCompletions false] : List PreloadEvent).filter isSinkNotification
      = if genuineDownload sampleModel envCold = true then
          [.setDownloading .ChatCompletions true, .setProgress .ChatCompletions 100,
           .setDownloading .ChatCompletions false]
        else [] :=
  preload_sink_notifications sampleModel .ChatCompletions envCold (.ok ())
    { sampleModel with path := "cache".toList, preloaded := true } _ (by decide)

/-- C8: after a successful `preload`, a second call on the resulting handle in
any environment where the resolved path now exists on disk (which a successful
fetch guarantees) short-circuits through the cache-hit branch: it succeeds,
emits nothing, and leaves the resolved path and the `preloaded` flag
unchanged. -/
theorem preload_idempotent_after_success (m : Model) (ep ep' : Endpoint)
    (env env' : Env) (m' : Model) (evs : List PreloadEvent)
    (h1 : m.preload ep env = some (.ok (), m', evs))
    (h2 : env'.isFile m'.path = true) :
    m'.preload ep' env' = some (.ok (), m', []) := by
  have hp : m'.preloaded = true := (preload_spec m ep env (.ok ()) m' evs h1).1 rfl
  have hm : { m' with preloaded := true } = m' := by
    cases m'
    simp_all
  unfold Model.preload
  rw [if_pos h2, hm]

/-- Witness for C8: a warm-cache first call followed by a second call. -/
theorem preload_idempotent_after_success_witness :
    ({ sampleModel with preloaded := true } : Model).preload .ChatCompletions envWarm
      = some (.ok (), { sampleModel with preloaded := true }, []) :=
  preload_idempotent_after_success sampleModel .ChatCompletions .ChatCompletions
    envWarm envWarm { sampleModel with preloaded := true } [] (by decide) (by decide)

/-- C10: whenever `preload` returns an error — `UnknownModel`, an `API`
(repository) error, or a `JoinError` — the handle is returned unchanged: the
`preloaded` flag and the resolved path keep the values they had before the
call. -/
theorem preload_error_leaves_model_unchanged (m : Model) (ep : Endpoint) (env : Env)
    (e : ModelError) (m' : Model) (evs : List PreloadEvent)
    (h : m.preload ep env = some (.error e, m', evs)) :
    m' = m :=
  (preload_spec m ep env (.error e) m' evs h).2.1 ⟨e, rfl⟩

/-- Witness for C10 on a failing progress join. -/
theorem preload_error_leaves_model_unchanged_witness :
    sampleModel = sampleModel :=
  preload_error_leaves_model_unchanged sampleModel .ChatCompletions envJoinFail
    (.JoinError "cancelled".toList) sampleModel
    [PreloadEvent.sizeProbe,
     .observeDownload .ChatCompletions "resources".toList (some 483116416) true,
     .setDownloading .ChatCompletions true, .fetchArtifact,
     .setProgress .ChatCompletions 100,
     .setDownloading .ChatCompletions false] (by decide)

/-- C9: with an empty configured model name, the chat endpoint fails with
`NoSuchModel` and the transcription endpoint with `FileNotFound`, in both
cases before a handle is built or preloaded; and for both endpoints the
client-supplied model name never influences resolution. -/
theorem empty_configured_model_rejected (settings : Settings) (dir : Str)
    (req_model : Str) :
    (settings.chat_completions_model_name = [] →
      chat_completions_resolve settings req_model dir = .error (.NoSuchModel [])) ∧
      (settings.audio_transcriptions_model_name = [] →
        create_transcription_resolve settings req_model dir = .error (.FileNotFound [])) ∧
      ∀ other, chat_completions_resolve settings req_model dir
          = chat_completions_resolve settings other dir
        ∧ create_transcription_resolve settings req_model dir
          = create_transcription_resolve settings other dir := by
  refine ⟨?_, ?_, ?_⟩
  · intro h
    simp [chat_completions_resolve, trim, h]
  · intro h
    simp [create_transcription_resolve, trim, h]
  · intro other
    exact ⟨rfl, rfl⟩

/-- Witness for C9 on a concrete all-empty configuration and a client-supplied
model name. -/
theorem empty_configured_model_rejected_witness :
    chat_completions_resolve
        { chat_completions_model_name := []
          chat_completions_model_repo := "repo".toList
          audio_transcriptions_model_name := []
          audio_transcriptions_model_repo := "repo".toList }
        "client-model".toList "dir".toList
      = .error (.NoSuchModel []) :=
  (empty_configured_model_rejected
    { chat_completions_model_name := []
      chat_completions_model_repo := "repo".toList
      audio_transcriptions_model_name := []
      audio_transcriptions_model_repo := "repo".toList }
    "dir".toList "client-model".toList).1 (by decide)
